import Mathlib

/-!
# Verification of `src/ratslam/visual_odometry.cpp` (OpenRatSLAM visual odometry)

Shallow embedding of the `ratslam::VisualOdometry` class.  C++ `double`
arithmetic on intensity profiles is modelled by exact rationals (`ℚ`); the
final rotation-rate conversion, which multiplies by `M_PI`, is modelled over
the reals with `Real.pi`.  The raw image buffer (`const unsigned char *`) is
modelled as a total function `ℕ → Fin 256`; reading out of bounds is
undefined behaviour in the C++ code, so claims carry in-bounds/validity
hypotheses where they matter.  C `int` values are `ℤ`, with C integer
division (truncation toward zero) rendered as `Int.tdiv`; the
`unsigned short width` parameter of `visual_odo` is modelled by reducing the
passed size modulo 2^16.  Negative array indices and negative
`std::vector::resize` arguments are undefined behaviour in the source; the
embedding clamps them with `Int.toNat` (commented at each use).
-/

namespace ratslam

/-- The `VisualOdometry` instance state: the constructor-initialised region
bounds and calibration constants, the image dimensions latched by `on_image`,
the four profile buffers, and the first-frame flag.  Field names follow the
C++ members (`visual_odometry.cpp`; the member declarations live in
`visual_odometry.h`). -/
structure VisualOdometry where
  VTRANS_IMAGE_X_MIN : ℤ
  VTRANS_IMAGE_X_MAX : ℤ
  VTRANS_IMAGE_Y_MIN : ℤ
  VTRANS_IMAGE_Y_MAX : ℤ
  VROT_IMAGE_X_MIN : ℤ
  VROT_IMAGE_X_MAX : ℤ
  VROT_IMAGE_Y_MIN : ℤ
  VROT_IMAGE_Y_MAX : ℤ
  CAMERA_FOV_DEG : ℚ
  CAMERA_HZ : ℚ
  VTRANS_SCALING : ℚ
  VTRANS_MAX : ℚ
  IMAGE_WIDTH : ℤ
  IMAGE_HEIGHT : ℤ
  vtrans_profile : List ℚ
  vtrans_prev_profile : List ℚ
  vrot_profile : List ℚ
  vrot_prev_profile : List ℚ
  first : Bool

/-- The constructor `VisualOdometry::VisualOdometry` (lines 42-82).  A
negative `*_max` bound is replaced by the current value of the `IMAGE_WIDTH`
(resp. `IMAGE_HEIGHT`) member.  Those members are declared in
`visual_odometry.h` (not part of `src/`); their values at construction time
are taken here as the parameters `image_width0` / `image_height0`.  The four
profile vectors are resized (zero-filled) to the resolved horizontal extent
of their region; `resize` receives a C `int` difference converted to
`size_t`, modelled with `Int.toNat` (a negative extent is UB in the C++). -/
def VisualOdometry.construct
    (vtrans_image_x_min vtrans_image_x_max vtrans_image_y_min vtrans_image_y_max
      vrot_image_x_min vrot_image_x_max vrot_image_y_min vrot_image_y_max : ℤ)
    (camera_fov_deg camera_hz vtrans_scaling vtrans_max : ℚ)
    (image_width0 image_height0 : ℤ) : VisualOdometry :=
  let vtxmax : ℤ := if vtrans_image_x_max < 0 then image_width0 else vtrans_image_x_max
  let vtymax : ℤ := if vtrans_image_y_max < 0 then image_height0 else vtrans_image_y_max
  let vrxmax : ℤ := if vrot_image_x_max < 0 then image_width0 else vrot_image_x_max
  let vrymax : ℤ := if vrot_image_y_max < 0 then image_height0 else vrot_image_y_max
  { VTRANS_IMAGE_X_MIN := vtrans_image_x_min
    VTRANS_IMAGE_X_MAX := vtxmax
    VTRANS_IMAGE_Y_MIN := vtrans_image_y_min
    VTRANS_IMAGE_Y_MAX := vtymax
    VROT_IMAGE_X_MIN := vrot_image_x_min
    VROT_IMAGE_X_MAX := vrxmax
    VROT_IMAGE_Y_MIN := vrot_image_y_min
    VROT_IMAGE_Y_MAX := vrymax
    CAMERA_FOV_DEG := camera_fov_deg
    CAMERA_HZ := camera_hz
    VTRANS_SCALING := vtrans_scaling
    VTRANS_MAX := vtrans_max
    IMAGE_WIDTH := image_width0
    IMAGE_HEIGHT := image_height0
    vtrans_profile := List.replicate (vtxmax - vtrans_image_x_min).toNat 0
    vtrans_prev_profile := List.replicate (vtxmax - vtrans_image_x_min).toNat 0
    vrot_profile := List.replicate (vrxmax - vrot_image_x_min).toNat 0
    vrot_prev_profile := List.replicate (vrxmax - vrot_image_x_min).toNat 0
    first := true }

/-- Element-wise copy `dst[i] = src[i]` for `0 ≤ i < n`, leaving `dst` beyond
`n` unchanged: models the copy loops at lines 94-99 and 160-162 (writing past
either buffer is UB in the C++; here the result simply has length
`max n dst.length`, reads past `src` yield `0.0`). -/
def listCopyInto (src dst : List ℚ) (n : ℕ) : List ℚ :=
  (List.range n).map (fun i => src.getD i 0) ++ dst.drop n

/-- Sum of the pixel intensities of one template block (lines 195-200 /
213-219): `x` runs over `[xb, xb + xbs)` (outer loop), `y` over
`[yb, yb + ybs)` (inner loop).  Greyscale reads the single byte at
`x + y * W`; RGB reads the three bytes at `(x + y * W) * 3 + {0,1,2}`.  A
negative pixel address is UB in C++; `Int.toNat` clamps it here. -/
def blockSum (img : ℕ → Fin 256) (grayscale : Bool) (W xb yb xbs ybs : ℤ) : ℚ :=
  ((List.range xbs.toNat).map (fun dx : ℕ =>
    ((List.range ybs.toNat).map (fun dy : ℕ =>
      let x : ℤ := xb + (dx : ℤ)
      let y : ℤ := yb + (dy : ℤ)
      if grayscale then
        ((img (x + y * W).toNat : ℕ) : ℚ)
      else
        ((img ((x + y * W) * 3).toNat : ℕ) : ℚ)
          + ((img ((x + y * W) * 3 + 1).toNat : ℕ) : ℚ)
          + ((img ((x + y * W) * 3 + 2).toNat : ℕ) : ℚ))).sum)).sum

/-- `VisualOdometry::convert_view_to_view_template` (lines 170-226).
`TEMPLATE_Y_SIZE` is the literal `1`, so the `y_block` loop runs exactly
once starting at `Y_RANGE_MIN`; the entry for column block `bx` is the block
pixel sum divided by the maximum channel value (`255` greyscale, `255*3`
RGB) and then by the block pixel count `x_block_size * y_block_size`.
`x_block_size = sub_range_x / TEMPLATE_X_SIZE` and
`y_block_size = sub_range_y / 1` use C integer division (`Int.tdiv`).
The function returns the `TEMPLATE_X_SIZE` freshly written entries (the C++
zero-initialises and then accumulates each one). -/
def convert_view_to_view_template (img : ℕ → Fin 256) (grayscale : Bool)
    (W X_RANGE_MIN X_RANGE_MAX Y_RANGE_MIN Y_RANGE_MAX : ℤ) : List ℚ :=
  let TEMPLATE_X_SIZE : ℤ := X_RANGE_MAX - X_RANGE_MIN
  let sub_range_x : ℤ := X_RANGE_MAX - X_RANGE_MIN
  let sub_range_y : ℤ := Y_RANGE_MAX - Y_RANGE_MIN
  let x_block_size : ℤ := Int.tdiv sub_range_x TEMPLATE_X_SIZE
  let y_block_size : ℤ := Int.tdiv sub_range_y 1
  (List.range TEMPLATE_X_SIZE.toNat).map (fun bx : ℕ =>
    blockSum img grayscale W (X_RANGE_MIN + (bx : ℤ) * x_block_size) Y_RANGE_MIN
        x_block_size y_block_size
      / (if grayscale then (255 : ℚ) else 255 * 3)
      / ((x_block_size * y_block_size : ℤ) : ℚ))

/-- The hard-coded search radius `int slen = 40` (line 123). -/
def slen : ℕ := 40

/-- The offsets evaluated by each of the two scan loops at lines 130 and 145:
`offset = 0, 1, ..., slen - 1`. -/
def searchOffsets : List ℕ := List.range slen

/-- Mean absolute difference for the first scan (lines 130-143): compares
`data[k]` with `olddata[k + offset]` for `0 ≤ k < cwl - offset` and divides
by `cwl - offset`.  Out-of-range reads (UB in C++) yield `0`, and the ℚ
convention `x / 0 = 0` stands in for the IEEE `0.0 / 0.0 = NaN` that the C++
produces when `cwl = offset` (see claim C3). -/
def cdiffNeg (data olddata : List ℚ) (cwl : ℤ) (offset : ℕ) : ℚ :=
  ((List.range (cwl - offset).toNat).map
    (fun k => |data.getD k 0 - olddata.getD (k + offset) 0|)).sum
    / ((cwl - offset : ℤ) : ℚ)

/-- Mean absolute difference for the second scan (lines 145-158): compares
`data[k + offset]` with `olddata[k]`. -/
def cdiffPos (data olddata : List ℚ) (cwl : ℤ) (offset : ℕ) : ℚ :=
  ((List.range (cwl - offset).toNat).map
    (fun k => |data.getD (k + offset) 0 - olddata.getD k 0|)).sum
    / ((cwl - offset : ℤ) : ℚ)

/-- The candidates produced by the first scan loop, in evaluation order; the
winning offset of this loop is recorded negated (`minoffset = -offset`,
line 141). -/
def negCandidates (data olddata : List ℚ) (cwl : ℤ) : List (ℚ × ℤ) :=
  searchOffsets.map (fun o => (cdiffNeg data olddata cwl o, -(o : ℤ)))

/-- The candidates produced by the second scan loop, in evaluation order;
this loop records the offset unnegated (`minoffset = offset`, line 156). -/
def posCandidates (data olddata : List ℚ) (cwl : ℤ) : List (ℚ × ℤ) :=
  searchOffsets.map (fun o => (cdiffPos data olddata cwl o, (o : ℤ)))

/-- All candidates in the order the two loops evaluate them: the whole first
(negative-direction) scan precedes the whole second (positive-direction)
scan. -/
def searchCandidates (data olddata : List ℚ) (cwl : ℤ) : List (ℚ × ℤ) :=
  negCandidates data olddata cwl ++ posCandidates data olddata cwl

/-- One update of the running `(mindiff, minoffset)` pair: the strict
comparison `if (cdiff < mindiff)` at lines 139 and 154. -/
def searchStep (acc c : ℚ × ℤ) : ℚ × ℤ :=
  if c.1 < acc.1 then c else acc

/-- The initial values `mindiff = 1e6`, `minoffset = 0` (lines 117-118). -/
def searchInit : ℚ × ℤ := (1000000, 0)

/-- The `(mindiff, minoffset)` pair after both scan loops of
`VisualOdometry::visual_odo` (lines 117-158); `cwl = width` (line 122). -/
def searchResult (data olddata : List ℚ) (width : ℕ) : ℚ × ℤ :=
  (searchCandidates data olddata (width : ℤ)).foldl searchStep searchInit

/-- The translational-speed output (lines 164-167): scale `mindiff` and clamp
it down to `VTRANS_MAX` when it exceeds it. -/
def vtrans_of (mindiff scaling vmax : ℚ) : ℚ :=
  if mindiff * scaling > vmax then vmax else mindiff * scaling

/-- The rotational-rate output (line 163):
`*vrot_rads = minoffset * CAMERA_FOV_DEG / IMAGE_WIDTH * CAMERA_HZ * M_PI / 180.0`. -/
noncomputable def vrot_of (minoffset : ℤ) (fov hz : ℚ) (W : ℤ) : ℝ :=
  (minoffset : ℝ) * (fov : ℝ) / (W : ℝ) * (hz : ℝ) * Real.pi / 180

/-- The outputs of one `visual_odo` call that are representable in ℚ/ℤ: the
clamped translational speed, the winning signed offset (from which the ℝ
rotation rate is `vrot_of`), and the overwritten previous-profile buffer. -/
structure VisualOdoOut where
  vtrans_ms : ℚ
  minoffset : ℤ
  olddata' : List ℚ

/-- `VisualOdometry::visual_odo` (lines 114-168): run the two scan loops,
overwrite `olddata[i] = data[i]` for `i < width` (lines 160-162), convert the
minimum difference into the clamped translational speed.  The signed winning
offset is returned; the rotational rate it encodes is `vrot_of` applied to
it (line 163). -/
def visual_odo (data olddata : List ℚ) (width : ℕ) (scaling vmax : ℚ) : VisualOdoOut :=
  let r := searchResult data olddata width
  { vtrans_ms := vtrans_of r.1 scaling vmax
    minoffset := r.2
    olddata' := listCopyInto data olddata width }

/-- `visual_odo`'s `width` parameter is `unsigned short`: `size()` is reduced
modulo 2^16 at the call sites in `on_image`. -/
def toUShort (n : ℕ) : ℕ := n % 65536

/-- Result of `VisualOdometry::on_image`: the mutated instance state, the
value written to `*vtrans_ms`, and the rotation search's winning offset
(the value written to `*vrot_rads` is `vrot_of` of it; see `on_image_vrot`). -/
structure OnImageOut where
  state : VisualOdometry
  vtrans_ms : ℚ
  rotMinoffset : ℤ

/-- `VisualOdometry::on_image` (lines 84-112): latch the image dimensions,
on the first call copy the (still zero-valued) current profiles into the
previous profiles and clear the flag, then for each region extract the
profile in place and run `visual_odo` against the previous profile.  The
translation region's call supplies `*vtrans_ms` (its rotation output goes to
`dummy`); the rotation region's call supplies `*vrot_rads` (its translation
output goes to `dummy`). -/
def on_image (s : VisualOdometry) (data : ℕ → Fin 256) (greyscale : Bool)
    (image_width image_height : ℕ) : OnImageOut :=
  let s0 := { s with IMAGE_WIDTH := (image_width : ℤ), IMAGE_HEIGHT := (image_height : ℤ) }
  let s1 := if s0.first then
      { s0 with
        vtrans_prev_profile :=
          listCopyInto s0.vtrans_profile s0.vtrans_prev_profile s0.vtrans_profile.length
        vrot_prev_profile :=
          listCopyInto s0.vrot_profile s0.vrot_prev_profile s0.vrot_profile.length
        first := false }
    else s0
  let ext1 := convert_view_to_view_template data greyscale s1.IMAGE_WIDTH
      s1.VTRANS_IMAGE_X_MIN s1.VTRANS_IMAGE_X_MAX s1.VTRANS_IMAGE_Y_MIN s1.VTRANS_IMAGE_Y_MAX
  let vtp := listCopyInto ext1 s1.vtrans_profile ext1.length
  let r1 := visual_odo vtp s1.vtrans_prev_profile (toUShort vtp.length)
      s1.VTRANS_SCALING s1.VTRANS_MAX
  let ext2 := convert_view_to_view_template data greyscale s1.IMAGE_WIDTH
      s1.VROT_IMAGE_X_MIN s1.VROT_IMAGE_X_MAX s1.VROT_IMAGE_Y_MIN s1.VROT_IMAGE_Y_MAX
  let vrp := listCopyInto ext2 s1.vrot_profile ext2.length
  let r2 := visual_odo vrp s1.vrot_prev_profile (toUShort vrp.length)
      s1.VTRANS_SCALING s1.VTRANS_MAX
  { state := { s1 with
      vtrans_profile := vtp
      vtrans_prev_profile := r1.olddata'
      vrot_profile := vrp
      vrot_prev_profile := r2.olddata' }
    vtrans_ms := r1.vtrans_ms
    rotMinoffset := r2.minoffset }

/-- The value `on_image` writes through `*vrot_rads`: line 163 applied to the
rotation region's winning offset, with the just-latched `IMAGE_WIDTH`. -/
noncomputable def on_image_vrot (s : VisualOdometry) (data : ℕ → Fin 256)
    (greyscale : Bool) (image_width image_height : ℕ) : ℝ :=
  let out := on_image s data greyscale image_width image_height
  vrot_of out.rotMinoffset s.CAMERA_FOV_DEG s.CAMERA_HZ out.state.IMAGE_WIDTH

/-! ## Helper lemmas -/

/-- The clamp at lines 164-167 never lets the translational output exceed
`vmax`. -/
theorem vtrans_of_le (a b c : ℚ) : vtrans_of a b c ≤ c := by
  unfold vtrans_of
  by_cases h : a * b > c
  · rw [if_pos h]
  · rw [if_neg h]
    exact not_lt.mp h

/-- The running minimum after a scan is either still the initial pair or one
of the evaluated candidates. -/
theorem foldl_searchStep_eq_or_mem (l : List (ℚ × ℤ)) (acc : ℚ × ℤ) :
    l.foldl searchStep acc = acc ∨ l.foldl searchStep acc ∈ l := by
  induction l generalizing acc with
  | nil => exact Or.inl rfl
  | cons c t ih =>
    rw [List.foldl_cons]
    rcases ih (searchStep acc c) with h | h
    · rw [h]
      unfold searchStep
      by_cases hc : c.1 < acc.1
      · rw [if_pos hc]
        exact Or.inr (List.mem_cons_self c t)
      · rw [if_neg hc]
        exact Or.inl rfl
    · exact Or.inr (List.mem_cons_of_mem c h)

/-- Characterisation of the strict-`<` scan: either no candidate beats the
initial pair and the result is the initial pair, or the result is the first
candidate that attains the overall minimum — every earlier candidate is
strictly worse, and no later candidate is strictly better. -/
theorem foldl_searchStep_firstMin (l : List (ℚ × ℤ)) (acc : ℚ × ℤ) :
    ((∀ c ∈ l, acc.1 ≤ c.1) ∧ l.foldl searchStep acc = acc) ∨
    (∃ pre m post, l = pre ++ m :: post ∧ l.foldl searchStep acc = m ∧ m.1 < acc.1 ∧
      (∀ c ∈ pre, m.1 < c.1) ∧ (∀ c ∈ post, m.1 ≤ c.1)) := by
  induction l generalizing acc with
  | nil => exact Or.inl ⟨by simp, rfl⟩
  | cons c t ih =>
    rw [List.foldl_cons]
    by_cases hc : c.1 < acc.1
    · have hstep : searchStep acc c = c := if_pos hc
      rw [hstep]
      rcases ih c with ⟨hall, heq⟩ | ⟨pre, m, post, hsplit, heq, hm, hpre, hpost⟩
      · refine Or.inr ⟨[], c, t, rfl, heq, hc, ?_, hall⟩
        intro x hx
        cases hx
      · refine Or.inr ⟨c :: pre, m, post, by rw [hsplit, List.cons_append], heq,
          lt_trans hm hc, ?_, hpost⟩
        intro x hx
        rcases List.mem_cons.mp hx with rfl | hx
        · exact hm
        · exact hpre x hx
    · have hstep : searchStep acc c = acc := if_neg hc
      rw [hstep]
      rcases ih acc with ⟨hall, heq⟩ | ⟨pre, m, post, hsplit, heq, hm, hpre, hpost⟩
      · refine Or.inl ⟨?_, heq⟩
        intro x hx
        rcases List.mem_cons.mp hx with rfl | hx
        · exact not_lt.mp hc
        · exact hall x hx
      · refine Or.inr ⟨c :: pre, m, post, by rw [hsplit, List.cons_append], heq, hm, ?_, hpost⟩
        intro x hx
        rcases List.mem_cons.mp hx with rfl | hx
        · exact lt_of_lt_of_le hm (not_lt.mp hc)
        · exact hpre x hx

/-- A list all of whose members are `0` reads `0` at every index under
`getD` (the default is also `0`). -/
theorem getD_zero_of_forall_mem {l : List ℚ} (h : ∀ e ∈ l, e = 0) (i : ℕ) :
    l.getD i 0 = 0 := by
  by_cases hi : i < l.length
  · rw [List.getD_eq_getElem _ _ hi]
    exact h _ (List.getElem_mem hi)
  · exact List.getD_eq_default _ _ (not_lt.mp hi)

/-- Conversely, if every `getD` read is `0`, every member is `0`. -/
theorem forall_mem_zero_of_getD {l : List ℚ} (h : ∀ i, l.getD i 0 = 0) :
    ∀ e ∈ l, e = 0 := by
  intro e he
  obtain ⟨i, hi, rfl⟩ := List.mem_iff_getElem.mp he
  rw [← List.getD_eq_getElem l 0 hi]
  exact h i

/-- `List.replicate n 0` reads `0` everywhere. -/
theorem replicate_getD_zero (n : ℕ) : ∀ i, (List.replicate n (0 : ℚ)).getD i 0 = 0 :=
  getD_zero_of_forall_mem (fun _ he => List.eq_of_mem_replicate he)

/-- Copying an all-zero source over an all-zero destination yields an
all-zero buffer. -/
theorem listCopyInto_getD_zero {src dst : List ℚ} (n : ℕ)
    (hs : ∀ i, src.getD i 0 = 0) (hd : ∀ i, dst.getD i 0 = 0) :
    ∀ i, (listCopyInto src dst n).getD i 0 = 0 := by
  apply getD_zero_of_forall_mem
  intro e he
  rcases List.mem_append.mp he with h | h
  · obtain ⟨j, _, rfl⟩ := List.mem_map.mp h
    exact hs j
  · exact forall_mem_zero_of_getD hd e (List.mem_of_mem_drop h)

/-- The Profile Extractor maps an all-black image to an all-zero profile,
whatever the region bounds, pixel format and image width. -/
theorem convert_view_zero_of_black {img : ℕ → Fin 256} (himg : ∀ p, img p = 0)
    (g : Bool) (W a b c d : ℤ) :
    ∀ e ∈ convert_view_to_view_template img g W a b c d, e = 0 := by
  intro e he
  unfold convert_view_to_view_template at he
  obtain ⟨bx, _, rfl⟩ := List.mem_map.mp he
  have hbs : ∀ xb yb xbs ybs : ℤ, blockSum img g W xb yb xbs ybs = 0 := by
    intro xb yb xbs ybs
    unfold blockSum
    apply List.sum_eq_zero
    intro x hx
    obtain ⟨dx, _, rfl⟩ := List.mem_map.mp hx
    apply List.sum_eq_zero
    intro y hy
    obtain ⟨dy, _, rfl⟩ := List.mem_map.mp hy
    cases g <;> simp [himg]
  rw [hbs]
  simp

/-- If both profiles read `0` everywhere, every first-scan mean difference is
`0`. -/
theorem cdiffNeg_zero {data olddata : List ℚ}
    (h1 : ∀ i, data.getD i 0 = 0) (h2 : ∀ i, olddata.getD i 0 = 0) (cwl : ℤ) (o : ℕ) :
    cdiffNeg data olddata cwl o = 0 := by
  unfold cdiffNeg
  rw [List.sum_eq_zero, zero_div]
  intro x hx
  obtain ⟨k, _, rfl⟩ := List.mem_map.mp hx
  rw [h1, h2]
  simp

/-- If both profiles read `0` everywhere, every second-scan mean difference
is `0`. -/
theorem cdiffPos_zero {data olddata : List ℚ}
    (h1 : ∀ i, data.getD i 0 = 0) (h2 : ∀ i, olddata.getD i 0 = 0) (cwl : ℤ) (o : ℕ) :
    cdiffPos data olddata cwl o = 0 := by
  unfold cdiffPos
  rw [List.sum_eq_zero, zero_div]
  intro x hx
  obtain ⟨k, _, rfl⟩ := List.mem_map.mp hx
  rw [h1, h2]
  simp

/-- When every candidate has the same mean difference `v < 1e6`, the scan
returns `(v, 0)`: the very first candidate (offset `0` of the
negative-direction loop) wins and no equal-value candidate replaces it. -/
theorem searchResult_of_constDiff (data olddata : List ℚ) (w : ℕ) (v : ℚ)
    (hv : v < 1000000)
    (hall : ∀ c ∈ searchCandidates data olddata (w : ℤ), c.1 = v) :
    searchResult data olddata w = (v, 0) := by
  have hmem0 : (cdiffNeg data olddata (w : ℤ) 0, -((0 : ℕ) : ℤ)) ∈
      searchCandidates data olddata (w : ℤ) :=
    List.mem_append_left _ (List.mem_map.mpr ⟨0, by simp [searchOffsets, slen], rfl⟩)
  rcases foldl_searchStep_firstMin (searchCandidates data olddata (w : ℤ)) searchInit with
    ⟨hallge, _⟩ | ⟨pre, m, post, hsplit, heq, _, hpre, hpost⟩
  · exfalso
    have hge := hallge _ hmem0
    rw [hall _ hmem0] at hge
    have hge' : (1000000 : ℚ) ≤ v := hge
    exact absurd hv (not_lt.mpr hge')
  · have hm_mem : m ∈ searchCandidates data olddata (w : ℤ) := by
      rw [hsplit]
      exact List.mem_append_right _ (List.mem_cons_self m post)
    have hmv : m.1 = v := hall _ hm_mem
    have hpre_nil : pre = [] := by
      cases pre with
      | nil => rfl
      | cons p ps =>
        exfalso
        have hp_mem : p ∈ searchCandidates data olddata (w : ℤ) := by
          rw [hsplit]
          exact List.mem_append_left _ (List.mem_cons_self p ps)
        have hlt := hpre p (List.mem_cons_self p ps)
        rw [hmv, hall p hp_mem] at hlt
        exact lt_irrefl v hlt
    subst hpre_nil
    rw [List.nil_append] at hsplit
    have hhead1 : (searchCandidates data olddata (w : ℤ)).head? = some m := by
      rw [hsplit]
      rfl
    have hhead2 : (searchCandidates data olddata (w : ℤ)).head? =
        some (cdiffNeg data olddata (w : ℤ) 0, -((0 : ℕ) : ℤ)) := rfl
    rw [hhead1] at hhead2
    have hm_eq : m = (cdiffNeg data olddata (w : ℤ) 0, -((0 : ℕ) : ℤ)) :=
      Option.some_injective _ hhead2
    show (searchCandidates data olddata (w : ℤ)).foldl searchStep searchInit = (v, 0)
    rw [heq, hm_eq, Prod.mk.injEq]
    refine ⟨?_, by simp⟩
    rw [← hmv, hm_eq]

/-- If both profiles read `0` everywhere, the scan result is exactly
`(mindiff, minoffset) = (0, 0)`. -/
theorem searchResult_zero {data olddata : List ℚ} (w : ℕ)
    (h1 : ∀ i, data.getD i 0 = 0) (h2 : ∀ i, olddata.getD i 0 = 0) :
    searchResult data olddata w = (0, 0) := by
  apply searchResult_of_constDiff _ _ _ 0 (by norm_num)
  intro c hc
  rcases List.mem_append.mp hc with h | h
  · obtain ⟨o, _, rfl⟩ := List.mem_map.mp h
    exact cdiffNeg_zero h1 h2 _ o
  · obtain ⟨o, _, rfl⟩ := List.mem_map.mp h
    exact cdiffPos_zero h1 h2 _ o

/-- When source and destination both have length `n`, the copy loop
reproduces the source exactly. -/
theorem listCopyInto_eq (src dst : List ℚ) (n : ℕ) (h1 : src.length = n)
    (h2 : dst.length ≤ n) : listCopyInto src dst n = src := by
  unfold listCopyInto
  rw [List.drop_eq_nil_of_le h2, List.append_nil]
  subst h1
  apply List.ext_getElem
  · simp
  · intro i h1' h2'
    simp only [List.getElem_map, List.getElem_range]
    exact List.getD_eq_getElem src 0 h2'

/-- `visual_odo` on two all-zero profiles: minimum difference `0` (so the
translational output is the clamp of `0 * scaling`) and winning offset `0`. -/
theorem visual_odo_zero (data olddata : List ℚ) (w : ℕ) (sc vm : ℚ)
    (h1 : ∀ i, data.getD i 0 = 0) (h2 : ∀ i, olddata.getD i 0 = 0) :
    (visual_odo data olddata w sc vm).vtrans_ms = vtrans_of 0 sc vm ∧
    (visual_odo data olddata w sc vm).minoffset = 0 := by
  unfold visual_odo
  rw [searchResult_zero w h1 h2]
  exact ⟨rfl, rfl⟩

/-- `on_image` on an all-black image from a state whose four profile buffers
are all zero (as they are after construction): the translation output is the
clamp of `0 * VTRANS_SCALING` and the rotation search returns offset `0`,
whether or not the first-frame flag is still set. -/
theorem on_image_black_outputs (s : VisualOdometry) (img : ℕ → Fin 256) (g : Bool)
    (W H : ℕ)
    (h1 : ∀ i, s.vtrans_profile.getD i 0 = 0) (h2 : ∀ i, s.vtrans_prev_profile.getD i 0 = 0)
    (h3 : ∀ i, s.vrot_profile.getD i 0 = 0) (h4 : ∀ i, s.vrot_prev_profile.getD i 0 = 0)
    (himg : ∀ p, img p = 0) :
    (on_image s img g W H).vtrans_ms = vtrans_of 0 s.VTRANS_SCALING s.VTRANS_MAX ∧
    (on_image s img g W H).rotMinoffset = 0 := by
  have hconv : ∀ a b c d : ℤ, ∀ i,
      (convert_view_to_view_template img g ((W : ℕ) : ℤ) a b c d).getD i 0 = 0 :=
    fun a b c d => getD_zero_of_forall_mem (convert_view_zero_of_black himg g _ a b c d)
  by_cases hf : s.first <;>
    simp only [on_image, hf, if_true, if_false, Bool.false_eq_true] <;>
    exact ⟨(visual_odo_zero _ _ _ _ _
        (listCopyInto_getD_zero _ (hconv _ _ _ _) h1)
        (by first
          | exact listCopyInto_getD_zero _ h1 h2
          | exact h2)).1,
      (visual_odo_zero _ _ _ _ _
        (listCopyInto_getD_zero _ (hconv _ _ _ _) h3)
        (by first
          | exact listCopyInto_getD_zero _ h3 h4
          | exact h4)).2⟩

/-- First-scan mean difference between an all-ones current profile and an
all-zero previous profile of common length `w`: every compared sample
contributes `|1 - 0| = 1`, so the mean is exactly `1` for every offset
`o < w`. -/
theorem cdiffNeg_one {data olddata : List ℚ} {w : ℕ}
    (hd : ∀ i < w, data.getD i 0 = 1) (hol : ∀ i < w, olddata.getD i 0 = 0)
    {o : ℕ} (ho : o < w) : cdiffNeg data olddata (w : ℤ) o = 1 := by
  unfold cdiffNeg
  have hn : ((w : ℤ) - (o : ℕ)).toNat = w - o := by omega
  rw [hn]
  have hmap : (List.range (w - o)).map
      (fun k => |data.getD k 0 - olddata.getD (k + o) 0|) =
      (List.range (w - o)).map (fun _ => (1 : ℚ)) := by
    apply List.map_congr_left
    intro k hk
    have hk' : k < w - o := List.mem_range.mp hk
    rw [hd k (by omega), hol (k + o) (by omega)]
    norm_num
  rw [hmap, List.map_const', List.sum_replicate, List.length_range, nsmul_eq_mul, mul_one]
  have hne : ((w : ℚ)) - ((o : ℚ)) ≠ 0 := by
    have hlt : (o : ℚ) < (w : ℚ) := by exact_mod_cast ho
    linarith
  push_cast [Nat.cast_sub ho.le]
  exact div_self hne

/-- Second-scan analogue of `cdiffNeg_one`. -/
theorem cdiffPos_one {data olddata : List ℚ} {w : ℕ}
    (hd : ∀ i < w, data.getD i 0 = 1) (hol : ∀ i < w, olddata.getD i 0 = 0)
    {o : ℕ} (ho : o < w) : cdiffPos data olddata (w : ℤ) o = 1 := by
  unfold cdiffPos
  have hn : ((w : ℤ) - (o : ℕ)).toNat = w - o := by omega
  rw [hn]
  have hmap : (List.range (w - o)).map
      (fun k => |data.getD (k + o) 0 - olddata.getD k 0|) =
      (List.range (w - o)).map (fun _ => (1 : ℚ)) := by
    apply List.map_congr_left
    intro k hk
    have hk' : k < w - o := List.mem_range.mp hk
    rw [hd (k + o) (by omega), hol k (by omega)]
    norm_num
  rw [hmap, List.map_const', List.sum_replicate, List.length_range, nsmul_eq_mul, mul_one]
  have hne : ((w : ℚ)) - ((o : ℚ)) ≠ 0 := by
    have hlt : (o : ℚ) < (w : ℚ) := by exact_mod_cast ho
    linarith
  push_cast [Nat.cast_sub ho.le]
  exact div_self hne

/-- For a length-40 all-ones current profile against an all-zero previous
profile, every candidate of both scans has mean difference `1` (the search
radius equals the length, so every evaluated offset is in range), and the
scan returns `(mindiff, minoffset) = (1, 0)`. -/
theorem searchResult_one {data olddata : List ℚ}
    (hd : ∀ i < 40, data.getD i 0 = 1) (hol : ∀ i < 40, olddata.getD i 0 = 0) :
    searchResult data olddata 40 = (1, 0) := by
  apply searchResult_of_constDiff _ _ _ 1 (by norm_num)
  intro c hc
  rcases List.mem_append.mp hc with h | h
  · obtain ⟨o, ho, rfl⟩ := List.mem_map.mp h
    have ho' : o < 40 := by
      have := List.mem_range.mp (by simpa [searchOffsets, slen] using ho)
      omega
    exact cdiffNeg_one hd hol ho'
  · obtain ⟨o, ho, rfl⟩ := List.mem_map.mp h
    have ho' : o < 40 := by
      have := List.mem_range.mp (by simpa [searchOffsets, slen] using ho)
      omega
    exact cdiffPos_one hd hol ho'

/-- Reading the copied prefix: for `i < n`, `listCopyInto src dst n` reads
`src`'s value. -/
theorem listCopyInto_getD_lt {src dst : List ℚ} {n i : ℕ} (hi : i < n) :
    (listCopyInto src dst n).getD i 0 = src.getD i 0 := by
  unfold listCopyInto
  rw [List.getD_append _ _ _ _ (by simpa using hi),
    List.getD_eq_getElem _ _ (by simpa using hi)]
  simp

/-- Length of the copy-loop result. -/
theorem listCopyInto_length (src dst : List ℚ) (n : ℕ) :
    (listCopyInto src dst n).length = n + (dst.length - n) := by
  simp [listCopyInto]

/-- The Profile Extractor on a constant all-`255` greyscale image over the
region `[0,40) × [0,1)` of a 40-pixel-wide image: 40 entries, each exactly
`1` (each 1×1 block sums to `255`, then `255 / 255 / 1 = 1`). -/
theorem convert_const255_entries :
    (convert_view_to_view_template (fun _ => (255 : Fin 256)) true 40 0 40 0 1).length = 40 ∧
    ∀ i < 40,
      (convert_view_to_view_template (fun _ => (255 : Fin 256)) true 40 0 40 0 1).getD i 0 = 1 := by
  have ht1 : Int.tdiv ((40 : ℤ) - 0) ((40 : ℤ) - 0) = 1 := by decide
  have ht2 : Int.tdiv ((1 : ℤ) - 0) 1 = 1 := by decide
  have h255 : ((255 : Fin 256) : ℕ) = 255 := rfl
  have hbs : ∀ xb : ℤ, blockSum (fun _ => (255 : Fin 256)) true 40 xb 0 1 1 = 255 := by
    intro xb
    unfold blockSum
    rw [show ((1 : ℤ).toNat) = 1 from rfl, show List.range 1 = [0] from rfl]
    simp [h255]
  have hlen :
      (convert_view_to_view_template (fun _ => (255 : Fin 256)) true 40 0 40 0 1).length = 40 := by
    unfold convert_view_to_view_template
    rw [List.length_map, List.length_range]
    decide
  refine ⟨hlen, ?_⟩
  intro i hi
  rw [List.getD_eq_getElem _ _ (by rw [hlen]; exact hi)]
  simp only [convert_view_to_view_template, List.getElem_map, List.getElem_range, ht1, ht2]
  rw [hbs]
  norm_num

/-- A list of non-negative rationals has non-negative sum. -/
theorem sum_nonneg_of_mem (l : List ℚ) (h : ∀ x ∈ l, 0 ≤ x) : 0 ≤ l.sum := by
  induction l with
  | nil => simp
  | cons a t ih =>
    rw [List.sum_cons]
    have ha := h a (List.mem_cons_self a t)
    have ht := ih (fun x hx => h x (List.mem_cons_of_mem a hx))
    linarith

/-- A list of rationals bounded by `b` has sum at most `b` times its
length. -/
theorem sum_le_bound (l : List ℚ) (b : ℚ) (h : ∀ x ∈ l, x ≤ b) :
    l.sum ≤ b * l.length := by
  induction l with
  | nil => simp
  | cons a t ih =>
    rw [List.sum_cons, List.length_cons]
    have ha := h a (List.mem_cons_self a t)
    have ht := ih (fun x hx => h x (List.mem_cons_of_mem a hx))
    have hexp : b * ((t.length : ℚ) + 1) = b * t.length + b := by ring
    push_cast
    rw [hexp]
    linarith

/-- Every byte, cast to ℚ, is at most `255`. -/
theorem byte_le_255 (img : ℕ → Fin 256) (p : ℕ) : ((img p : ℕ) : ℚ) ≤ 255 := by
  have h := (img p).isLt
  have : (img p : ℕ) ≤ 255 := by omega
  exact_mod_cast this

/-- Bounds for the sum of one 1-pixel-wide column block: non-negative, and
at most the per-pixel channel maximum (`255` greyscale, `765` RGB) times the
block height. -/
theorem blockSum_bounds (img : ℕ → Fin 256) (g : Bool) (W xb yb ybs : ℤ) :
    0 ≤ blockSum img g W xb yb 1 ybs ∧
    blockSum img g W xb yb 1 ybs ≤ (if g then (255 : ℚ) else 765) * (ybs.toNat : ℚ) := by
  unfold blockSum
  rw [show ((1 : ℤ).toNat) = 1 from rfl, show List.range 1 = [0] from rfl]
  simp only [List.map_cons, List.map_nil, List.sum_cons, List.sum_nil, add_zero]
  constructor
  · apply sum_nonneg_of_mem
    intro x hx
    obtain ⟨dy, _, rfl⟩ := List.mem_map.mp hx
    cases g <;> simp <;> positivity
  · have hterm : ∀ x ∈ (List.range ybs.toNat).map (fun dy : ℕ =>
        if g = true then ((img ((xb + ((0 : ℕ) : ℤ)) + (yb + (dy : ℤ)) * W).toNat : ℕ) : ℚ)
        else ((img (((xb + ((0 : ℕ) : ℤ)) + (yb + (dy : ℤ)) * W) * 3).toNat : ℕ) : ℚ)
          + ((img (((xb + ((0 : ℕ) : ℤ)) + (yb + (dy : ℤ)) * W) * 3 + 1).toNat : ℕ) : ℚ)
          + ((img (((xb + ((0 : ℕ) : ℤ)) + (yb + (dy : ℤ)) * W) * 3 + 2).toNat : ℕ) : ℚ)),
        x ≤ (if g then (255 : ℚ) else 765) := by
      intro x hx
      obtain ⟨dy, _, rfl⟩ := List.mem_map.mp hx
      cases g
      · simp only [Bool.false_eq_true, if_false]
        have h1 := byte_le_255 img (((xb + ((0 : ℕ) : ℤ)) + (yb + (dy : ℤ)) * W) * 3).toNat
        have h2 := byte_le_255 img (((xb + ((0 : ℕ) : ℤ)) + (yb + (dy : ℤ)) * W) * 3 + 1).toNat
        have h3 := byte_le_255 img (((xb + ((0 : ℕ) : ℤ)) + (yb + (dy : ℤ)) * W) * 3 + 2).toNat
        linarith
      · simp only [if_true]
        exact byte_le_255 img _
    have hs := sum_le_bound _ _ hterm
    simpa [List.length_map, List.length_range] using hs

/-- The winning signed offset is bounded: it is either the initial `0` or
`±o` for some evaluated `o < slen = 40`, so its magnitude is at most `39`. -/
theorem searchResult_minoffset_abs_le (data olddata : List ℚ) (w : ℕ) :
    |(searchResult data olddata w).2| ≤ 39 := by
  rcases foldl_searchStep_eq_or_mem (searchCandidates data olddata (w : ℤ)) searchInit
    with h | h
  · unfold searchResult
    rw [h]
    decide
  · rcases List.mem_append.mp h with hn | hp
    · obtain ⟨o, ho, heq⟩ := List.mem_map.mp hn
      have ho' : o < 40 := by
        have := List.mem_range.mp (by simpa [searchOffsets, slen] using ho)
        omega
      unfold searchResult
      rw [← heq]
      simp only [abs_neg]
      rw [abs_of_nonneg (Int.natCast_nonneg o)]
      exact_mod_cast Nat.le_of_lt_succ (by omega : o < 40)
    · obtain ⟨o, ho, heq⟩ := List.mem_map.mp hp
      have ho' : o < 40 := by
        have := List.mem_range.mp (by simpa [searchOffsets, slen] using ho)
        omega
      unfold searchResult
      rw [← heq]
      rw [abs_of_nonneg (Int.natCast_nonneg o)]
      exact_mod_cast Nat.le_of_lt_succ (by omega : o < 40)

/-- Magnitude bound for the rotational-rate conversion: with a bounded
offset, a positive image width and non-negative calibration constants,
`|vrot_of m fov hz W| ≤ 39 * fov * hz * π / (180 * W)`. -/
theorem vrot_of_abs_le (m : ℤ) (fov hz : ℚ) (W : ℕ) (hm : |m| ≤ 39) (hW : 0 < W)
    (hfov : 0 ≤ fov) (hhz : 0 ≤ hz) :
    |vrot_of m fov hz ((W : ℕ) : ℤ)| ≤
      39 * (fov : ℝ) * (hz : ℝ) * Real.pi / (180 * (W : ℝ)) := by
  unfold vrot_of
  have hWR : (0 : ℝ) < (W : ℝ) := by exact_mod_cast hW
  have hfovR : (0 : ℝ) ≤ (fov : ℝ) := by exact_mod_cast hfov
  have hhzR : (0 : ℝ) ≤ (hz : ℝ) := by exact_mod_cast hhz
  have hmR : |(m : ℝ)| ≤ 39 := by
    rw [← Int.cast_abs]
    exact_mod_cast hm
  have hcast : ((((W : ℕ) : ℤ)) : ℝ) = (W : ℝ) := by push_cast; ring
  rw [hcast]
  have heq : (m : ℝ) * (fov : ℝ) / (W : ℝ) * (hz : ℝ) * Real.pi / 180 =
      (m : ℝ) * ((fov : ℝ) * (hz : ℝ) * Real.pi / (180 * (W : ℝ))) := by
    field_simp
    ring
  rw [heq, abs_mul]
  have hfac0 : (0 : ℝ) ≤ (fov : ℝ) * (hz : ℝ) * Real.pi / (180 * (W : ℝ)) := by
    apply div_nonneg (mul_nonneg (mul_nonneg hfovR hhzR) Real.pi_pos.le)
    positivity
  rw [abs_of_nonneg hfac0]
  calc |(m : ℝ)| * ((fov : ℝ) * (hz : ℝ) * Real.pi / (180 * (W : ℝ)))
      ≤ 39 * ((fov : ℝ) * (hz : ℝ) * Real.pi / (180 * (W : ℝ))) :=
        mul_le_mul_of_nonneg_right hmR hfac0
    _ = 39 * (fov : ℝ) * (hz : ℝ) * Real.pi / (180 * (W : ℝ)) := by ring

/-! ## Claims -/

/-- Claim C1 (corrected, amended): on the first processed frame the
previous-profile buffers are seeded — *before* the profiles are extracted
from the image — with the construction-time, zero-valued current buffers.
Hence the first frame compares the first image's profile against zeros, and
both outputs are exactly zero when the first image is all-black (given a
non-negative clamp ceiling); they are *not* zero for arbitrary pixel
content (see `c1_counterexample`). -/
theorem c1_first_frame_zero_for_black_image
    (vtxmin vtxmax vtymin vtymax vrxmin vrxmax vrymin vrymax : ℤ)
    (fov hz scaling vmax : ℚ) (iw0 ih0 : ℤ) (img : ℕ → Fin 256) (g : Bool) (W H : ℕ)
    (himg : ∀ p, img p = 0) (hvmax : 0 ≤ vmax) :
    (on_image (VisualOdometry.construct vtxmin vtxmax vtymin vtymax vrxmin vrxmax vrymin
        vrymax fov hz scaling vmax iw0 ih0) img g W H).vtrans_ms = 0 ∧
    on_image_vrot (VisualOdometry.construct vtxmin vtxmax vtymin vtymax vrxmin vrxmax vrymin
        vrymax fov hz scaling vmax iw0 ih0) img g W H = 0 := by
  have hz0 := on_image_black_outputs
    (VisualOdometry.construct vtxmin vtxmax vtymin vtymax vrxmin vrxmax vrymin vrymax
      fov hz scaling vmax iw0 ih0) img g W H
    (fun i => replicate_getD_zero _ i) (fun i => replicate_getD_zero _ i)
    (fun i => replicate_getD_zero _ i) (fun i => replicate_getD_zero _ i) himg
  constructor
  · rw [hz0.1]
    show vtrans_of 0 scaling vmax = 0
    unfold vtrans_of
    rw [zero_mul, if_neg (not_lt.mpr hvmax)]
  · simp only [on_image_vrot]
    rw [hz0.2]
    simp [vrot_of]

/-- Claim C1 witness: a concrete first frame (flag still `true` after
construction) with an all-black image yields translational speed `0` and
rotational rate `0`. -/
theorem c1_witness :
    (on_image (VisualOdometry.construct 0 1 0 1 0 1 0 1 1 1 1 1 1 1)
        (fun _ => 0) true 1 1).vtrans_ms = 0 ∧
    on_image_vrot (VisualOdometry.construct 0 1 0 1 0 1 0 1 1 1 1 1 1 1)
        (fun _ => 0) true 1 1 = 0 :=
  c1_first_frame_zero_for_black_image 0 1 0 1 0 1 0 1 1 1 1 1 1 1 (fun _ => 0) true 1 1
    (fun _ => rfl) (by norm_num)

/-- Claim C1, counterexample to the claim as stated: the first-frame outputs
are NOT zero regardless of pixel content.  The first-frame seeding at lines
93-101 runs *before* the profile extraction at line 103, so the previous
profile is the all-zero construction-time buffer, not the first image's
profile.  With 40-wide, 1-high regions, a 40×1 all-white (255) image,
`VTRANS_SCALING = 1` and `VTRANS_MAX = 10`, every candidate mean difference
is `|1 - 0| = 1`, so the first frame writes translational speed `1 ≠ 0`. -/
theorem c1_counterexample :
    (on_image (VisualOdometry.construct 0 40 0 1 0 40 0 1 1 1 1 10 40 1)
        (fun _ => (255 : Fin 256)) true 40 1).vtrans_ms ≠ 0 := by
  have hEXT := convert_const255_entries
  simp only [on_image, VisualOdometry.construct, visual_odo]
  norm_num
  simp only [show Int.toNat 40 = (40 : ℕ) from rfl]
  set E := convert_view_to_view_template (fun _ => (255 : Fin 256)) true 40 0 40 0 1 with hE
  have hVT : ∀ i < 40, (listCopyInto E (List.replicate 40 0) E.length).getD i 0 = 1 := by
    intro i hi
    rw [listCopyInto_getD_lt (by rw [hEXT.1]; exact hi)]
    exact hEXT.2 i hi
  have hPREV : ∀ i,
      (listCopyInto (List.replicate 40 (0 : ℚ)) (List.replicate 40 0) 40).getD i 0 = 0 :=
    listCopyInto_getD_zero _ (replicate_getD_zero _) (replicate_getD_zero _)
  have hVTlen : (listCopyInto E (List.replicate 40 (0 : ℚ)) E.length).length = 40 := by
    rw [listCopyInto_length, hEXT.1]
    simp
  have hUS : toUShort (listCopyInto E (List.replicate 40 (0 : ℚ)) E.length).length = 40 := by
    rw [hVTlen]
    rfl
  rw [hUS, searchResult_one hVT (fun i _ => hPREV i)]
  norm_num [vtrans_of]

/-- Claim C2 (corrected), counterexample to the claim as stated: the sentinel
test at line 60 is `vrot_image_x_max < 0`, so a rotation-region `x_max` of
`0` is NOT resolved to the full image width: constructing with
`vrot_image_x_max = 0` while the latched image width is `160` leaves the
resolved bound at `0`, not `160`. -/
theorem c2_counterexample :
    (VisualOdometry.construct 0 10 0 10 0 0 0 10 50 10 1 1 160 120).VROT_IMAGE_X_MAX ≠ 160 := by
  decide

/-- Claim C2 (amended): a strictly negative region max bound is resolved at
construction to the full image dimension (the `IMAGE_WIDTH` member's value at
construction time); in particular rotation-region `x_max = -1` with image
width `160` resolves to `160`, and the rotation profile buffers are sized
from the resolved width.  A max bound of exactly `0` is kept as `0`. -/
theorem c2_negative_sentinel_resolved
    (vtxmin vtxmax vtymin vtymax vrxmin vrxmax vrymin vrymax : ℤ)
    (fov hz scaling vmax : ℚ) (iw0 ih0 : ℤ) (h : vrxmax < 0) :
    (VisualOdometry.construct vtxmin vtxmax vtymin vtymax vrxmin vrxmax vrymin vrymax
        fov hz scaling vmax iw0 ih0).VROT_IMAGE_X_MAX = iw0 ∧
    (VisualOdometry.construct vtxmin vtxmax vtymin vtymax vrxmin vrxmax vrymin vrymax
        fov hz scaling vmax iw0 ih0).vrot_profile.length = (iw0 - vrxmin).toNat := by
  constructor
  · simp [VisualOdometry.construct, if_pos h]
  · simp [VisualOdometry.construct, if_pos h]

/-- Claim C2 witness: the spec's scenario — `vrot_image_x_max = -1`, image
width `160` — resolves the rotation region's `x_max` to `160` and sizes the
rotation profile to `160` entries. -/
theorem c2_witness :
    (VisualOdometry.construct 0 10 0 10 0 (-1) 0 10 50 10 1 1 160 120).VROT_IMAGE_X_MAX = 160 ∧
    (VisualOdometry.construct 0 10 0 10 0 (-1) 0 10 50 10 1 1 160 120).vrot_profile.length = 160 := by
  refine ⟨(c2_negative_sentinel_resolved 0 10 0 10 0 (-1) 0 10 50 10 1 1 160 120 (by decide)).1,
    ((c2_negative_sentinel_resolved 0 10 0 10 0 (-1) 0 10 50 10 1 1 160 120 (by decide)).2).trans
      (by decide)⟩

/-- Claim C3 (corrected), counterexample to the claim as stated: it is not
true for every call that every evaluated offset `o` keeps `L - o` positive —
the search radius is the hard-coded `slen = 40`, and for a profile of length
`10` the loops evaluate `o = 10`, making the divisor `cwl - offset` zero
(IEEE `0.0/0.0 = NaN` in the C++). -/
theorem c3_counterexample :
    ¬ (∀ (w : ℕ), ∀ o ∈ searchOffsets, 0 < (w : ℤ) - (o : ℤ)) := by
  intro h
  have h10 := h 10 10 (by decide)
  omega

/-- Claim C3 (amended): provided the profile length is at least the
hard-coded search radius `slen = 40`, every offset evaluated by the two scan
loops satisfies `L - o > 0`, so the division by `cwl - offset` at lines 137
and 152 never divides by zero.  The code contains no runtime check of this
precondition. -/
theorem c3_denominator_pos_of_len_ge_slen (w : ℕ) (hw : slen ≤ w) :
    ∀ o ∈ searchOffsets, 0 < (w : ℤ) - (o : ℤ) := by
  intro o ho
  have ho' : o < slen := List.mem_range.mp (by simpa [searchOffsets] using ho)
  have : (40 : ℕ) ≤ w := hw
  have : o < 40 := ho'
  omega

/-- Claim C3 witness: a profile of length exactly `40` keeps the divisor
positive even at the largest evaluated offset `39`. -/
theorem c3_witness : slen ≤ 40 ∧ 0 < (40 : ℤ) - ((39 : ℕ) : ℤ) :=
  ⟨by decide, c3_denominator_pos_of_len_ge_slen 40 (by decide) 39 (by decide)⟩

/-- Claim C6 (confirmed): the rotational rate written by `on_image` through
`*vrot_rads` equals the rotation search's winning signed offset times
`CAMERA_FOV_DEG`, divided by the latched `IMAGE_WIDTH`, times `CAMERA_HZ`,
times `π / 180` (line 163). -/
theorem c6_vrot_formula (s : VisualOdometry) (data : ℕ → Fin 256) (g : Bool)
    (W H : ℕ) :
    on_image_vrot s data g W H =
      ((on_image s data g W H).rotMinoffset : ℝ) * (s.CAMERA_FOV_DEG : ℝ) / (W : ℝ)
        * (s.CAMERA_HZ : ℝ) * Real.pi / 180 := by
  by_cases hf : s.first <;>
  · simp only [on_image_vrot, vrot_of, on_image, hf, if_true, if_false, Bool.false_eq_true]
    push_cast
    ring

/-- Claim C7 (confirmed): for every instance state and every input image, the
translational speed written by `on_image` is at most the configured ceiling
`VTRANS_MAX` (lines 164-167 clamp the scaled minimum difference down to it). -/
theorem c7_vtrans_clamped (s : VisualOdometry) (data : ℕ → Fin 256) (g : Bool)
    (W H : ℕ) :
    (on_image s data g W H).vtrans_ms ≤ s.VTRANS_MAX := by
  by_cases hf : s.first <;>
  · simp only [on_image, hf, if_true, if_false, Bool.false_eq_true, visual_odo]
    exact vtrans_of_le _ _ _

/-- Claim C5 (confirmed): the winning offset is decided by strict `<`: the
candidate order is the whole negative-direction scan (offsets recorded
negated) followed by the whole positive-direction scan, and — whenever any
candidate beats the `1e6` initialiser — the scan result is the first
candidate attaining the minimum: every earlier candidate is strictly worse
and no later candidate is strictly better (equal-or-worse candidates never
replace the recorded minimum). -/
theorem c5_first_min_wins (data olddata : List ℚ) (w : ℕ)
    (h : ∃ c ∈ searchCandidates data olddata (w : ℤ), c.1 < searchInit.1) :
    searchCandidates data olddata (w : ℤ) =
      negCandidates data olddata (w : ℤ) ++ posCandidates data olddata (w : ℤ) ∧
    ∃ pre m post, searchCandidates data olddata (w : ℤ) = pre ++ m :: post ∧
      searchResult data olddata w = m ∧
      (∀ c ∈ pre, m.1 < c.1) ∧ (∀ c ∈ post, m.1 ≤ c.1) := by
  refine ⟨rfl, ?_⟩
  rcases foldl_searchStep_firstMin (searchCandidates data olddata (w : ℤ)) searchInit with
    ⟨hall, _⟩ | ⟨pre, m, post, hsplit, heq, _, hpre, hpost⟩
  · obtain ⟨c, hc, hlt⟩ := h
    exact absurd hlt (not_lt.mpr (hall c hc))
  · exact ⟨pre, m, post, hsplit, heq, hpre, hpost⟩

/-- Claim C5 witness: for empty profiles (`width = 0`) the first candidate
already has mean difference `0 < 1e6`, and the scan result is the first
minimum-attaining candidate of the negatives-then-positives order. -/
theorem c5_witness :
    searchCandidates [] [] ((0 : ℕ) : ℤ) =
      negCandidates [] [] ((0 : ℕ) : ℤ) ++ posCandidates [] [] ((0 : ℕ) : ℤ) ∧
    ∃ pre m post, searchCandidates [] [] ((0 : ℕ) : ℤ) = pre ++ m :: post ∧
      searchResult [] [] 0 = m ∧
      (∀ c ∈ pre, m.1 < c.1) ∧ (∀ c ∈ post, m.1 ≤ c.1) :=
  c5_first_min_wins [] [] 0
    ⟨(cdiffNeg [] [] ((0 : ℕ) : ℤ) 0, -((0 : ℕ) : ℤ)),
      List.mem_append_left _ (List.mem_map.mpr ⟨0, by simp [searchOffsets, slen], rfl⟩),
      by norm_num [cdiffNeg, searchInit]⟩

/-- Claim C8 (confirmed): after `visual_odo`, the previous-profile buffer
equals (as a whole list, element by element) the current profile that was
passed in, and — at the `on_image` level — no configuration state is
modified: all region bounds and calibration constants are unchanged.  (In
this embedding `visual_odo` returns only the overwritten previous buffer and
the two outputs, so it structurally cannot modify the current profile or
anything else.) -/
theorem c8_prev_overwritten (data olddata : List ℚ) (w : ℕ) (scaling vmax : ℚ)
    (s : VisualOdometry) (img : ℕ → Fin 256) (g : Bool) (W H : ℕ)
    (h1 : data.length = w) (h2 : olddata.length = w) :
    (visual_odo data olddata w scaling vmax).olddata' = data ∧
    (on_image s img g W H).state.VTRANS_IMAGE_X_MIN = s.VTRANS_IMAGE_X_MIN ∧
    (on_image s img g W H).state.VTRANS_IMAGE_X_MAX = s.VTRANS_IMAGE_X_MAX ∧
    (on_image s img g W H).state.VTRANS_IMAGE_Y_MIN = s.VTRANS_IMAGE_Y_MIN ∧
    (on_image s img g W H).state.VTRANS_IMAGE_Y_MAX = s.VTRANS_IMAGE_Y_MAX ∧
    (on_image s img g W H).state.VROT_IMAGE_X_MIN = s.VROT_IMAGE_X_MIN ∧
    (on_image s img g W H).state.VROT_IMAGE_X_MAX = s.VROT_IMAGE_X_MAX ∧
    (on_image s img g W H).state.VROT_IMAGE_Y_MIN = s.VROT_IMAGE_Y_MIN ∧
    (on_image s img g W H).state.VROT_IMAGE_Y_MAX = s.VROT_IMAGE_Y_MAX ∧
    (on_image s img g W H).state.CAMERA_FOV_DEG = s.CAMERA_FOV_DEG ∧
    (on_image s img g W H).state.CAMERA_HZ = s.CAMERA_HZ ∧
    (on_image s img g W H).state.VTRANS_SCALING = s.VTRANS_SCALING ∧
    (on_image s img g W H).state.VTRANS_MAX = s.VTRANS_MAX := by
  refine ⟨by simp [visual_odo, listCopyInto_eq data olddata w h1 (le_of_eq h2)], ?_⟩
  by_cases hf : s.first <;> simp [on_image, hf]

/-- Claim C8 witness: concrete two-entry profiles; the previous buffer
becomes exactly the current profile and the configuration is untouched. -/
theorem c8_witness :
    (visual_odo [1, 2] [3, 4] 2 1 1).olddata' = [1, 2] ∧
    (on_image (VisualOdometry.construct 0 0 0 0 0 0 0 0 1 1 1 1 1 1) (fun _ => 0) true 1
        1).state.VTRANS_IMAGE_X_MIN =
      (VisualOdometry.construct 0 0 0 0 0 0 0 0 1 1 1 1 1 1).VTRANS_IMAGE_X_MIN ∧
    (on_image (VisualOdometry.construct 0 0 0 0 0 0 0 0 1 1 1 1 1 1) (fun _ => 0) true 1
        1).state.VTRANS_IMAGE_X_MAX =
      (VisualOdometry.construct 0 0 0 0 0 0 0 0 1 1 1 1 1 1).VTRANS_IMAGE_X_MAX ∧
    (on_image (VisualOdometry.construct 0 0 0 0 0 0 0 0 1 1 1 1 1 1) (fun _ => 0) true 1
        1).state.VTRANS_IMAGE_Y_MIN =
      (VisualOdometry.construct 0 0 0 0 0 0 0 0 1 1 1 1 1 1).VTRANS_IMAGE_Y_MIN ∧
    (on_image (VisualOdometry.construct 0 0 0 0 0 0 0 0 1 1 1 1 1 1) (fun _ => 0) true 1
        1).state.VTRANS_IMAGE_Y_MAX =
      (VisualOdometry.construct 0 0 0 0 0 0 0 0 1 1 1 1 1 1).VTRANS_IMAGE_Y_MAX ∧
    (on_image (VisualOdometry.construct 0 0 0 0 0 0 0 0 1 1 1 1 1 1) (fun _ => 0) true 1
        1).state.VROT_IMAGE_X_MIN =
      (VisualOdometry.construct 0 0 0 0 0 0 0 0 1 1 1 1 1 1).VROT_IMAGE_X_MIN ∧
    (on_image (VisualOdometry.construct 0 0 0 0 0 0 0 0 1 1 1 1 1 1) (fun _ => 0) true 1
        1).state.VROT_IMAGE_X_MAX =
      (VisualOdometry.construct 0 0 0 0 0 0 0 0 1 1 1 1 1 1).VROT_IMAGE_X_MAX ∧
    (on_image (VisualOdometry.construct 0 0 0 0 0 0 0 0 1 1 1 1 1 1) (fun _ => 0) true 1
        1).state.VROT_IMAGE_Y_MIN =
      (VisualOdometry.construct 0 0 0 0 0 0 0 0 1 1 1 1 1 1).VROT_IMAGE_Y_MIN ∧
    (on_image (VisualOdometry.construct 0 0 0 0 0 0 0 0 1 1 1 1 1 1) (fun _ => 0) true 1
        1).state.VROT_IMAGE_Y_MAX =
      (VisualOdometry.construct 0 0 0 0 0 0 0 0 1 1 1 1 1 1).VROT_IMAGE_Y_MAX ∧
    (on_image (VisualOdometry.construct 0 0 0 0 0 0 0 0 1 1 1 1 1 1) (fun _ => 0) true 1
        1).state.CAMERA_FOV_DEG =
      (VisualOdometry.construct 0 0 0 0 0 0 0 0 1 1 1 1 1 1).CAMERA_FOV_DEG ∧
    (on_image (VisualOdometry.construct 0 0 0 0 0 0 0 0 1 1 1 1 1 1) (fun _ => 0) true 1
        1).state.CAMERA_HZ =
      (VisualOdometry.construct 0 0 0 0 0 0 0 0 1 1 1 1 1 1).CAMERA_HZ ∧
    (on_image (VisualOdometry.construct 0 0 0 0 0 0 0 0 1 1 1 1 1 1) (fun _ => 0) true 1
        1).state.VTRANS_SCALING =
      (VisualOdometry.construct 0 0 0 0 0 0 0 0 1 1 1 1 1 1).VTRANS_SCALING ∧
    (on_image (VisualOdometry.construct 0 0 0 0 0 0 0 0 1 1 1 1 1 1) (fun _ => 0) true 1
        1).state.VTRANS_MAX =
      (VisualOdometry.construct 0 0 0 0 0 0 0 0 1 1 1 1 1 1).VTRANS_MAX :=
  c8_prev_overwritten [1, 2] [3, 4] 2 1 1
    (VisualOdometry.construct 0 0 0 0 0 0 0 0 1 1 1 1 1 1) (fun _ => 0) true 1 1
    (by simp) (by simp)

/-- Claim C9 (confirmed): the per-frame computation is deterministic — two
`on_image` calls from identical instance states with identical pixel
buffers, format flag and dimensions write identical translational and
rotational outputs and leave identical instance states.  The embedding is a
pure function of `(state, image, flag, width, height)`, so this is
immediate: there is no other input (no randomness, no hidden state). -/
theorem c9_deterministic (s1 s2 : VisualOdometry) (d1 d2 : ℕ → Fin 256)
    (g1 g2 : Bool) (W1 W2 H1 H2 : ℕ) (hs : s1 = s2) (hd : d1 = d2) (hg : g1 = g2)
    (hW : W1 = W2) (hH : H1 = H2) :
    on_image s1 d1 g1 W1 H1 = on_image s2 d2 g2 W2 H2 ∧
    on_image_vrot s1 d1 g1 W1 H1 = on_image_vrot s2 d2 g2 W2 H2 := by
  subst hs hd hg hW hH
  exact ⟨rfl, rfl⟩

/-- Claim C9 witness: a concrete repeated call. -/
theorem c9_witness :
    on_image (VisualOdometry.construct 0 0 0 0 0 0 0 0 1 1 1 1 1 1) (fun _ => 0) true 1 1 =
      on_image (VisualOdometry.construct 0 0 0 0 0 0 0 0 1 1 1 1 1 1) (fun _ => 0) true 1 1 ∧
    on_image_vrot (VisualOdometry.construct 0 0 0 0 0 0 0 0 1 1 1 1 1 1) (fun _ => 0) true 1 1 =
      on_image_vrot (VisualOdometry.construct 0 0 0 0 0 0 0 0 1 1 1 1 1 1) (fun _ => 0) true 1 1 :=
  c9_deterministic _ _ _ _ _ _ _ _ _ _ rfl rfl rfl rfl rfl

/-- Claim C4 (confirmed): for every valid region (in-bounds and non-empty in
both axes) and every pixel buffer, in both pixel formats, every entry the
Profile Extractor writes lies in `[0, 1]`: each entry is a block pixel sum
divided by the maximum channel value (`255` greyscale, `255*3` RGB) and by
the block pixel count.  (The extractor never reads the image height, so the
vertical in-bounds hypotheses merely document the region-validity contract.) -/
theorem c4_profile_entries_in_unit_interval (img : ℕ → Fin 256) (g : Bool)
    (W H XMIN XMAX YMIN YMAX : ℤ) (hx : XMIN < XMAX) (hy : YMIN < YMAX)
    (hx0 : 0 ≤ XMIN) (hxW : XMAX ≤ W) (hy0 : 0 ≤ YMIN) (hyH : YMAX ≤ H) :
    ∀ e ∈ convert_view_to_view_template img g W XMIN XMAX YMIN YMAX,
      0 ≤ e ∧ e ≤ 1 := by
  intro e he
  simp only [convert_view_to_view_template] at he
  obtain ⟨bx, hbx, rfl⟩ := List.mem_map.mp he
  have hTX : XMAX - XMIN ≠ 0 := by omega
  have hxbs : Int.tdiv (XMAX - XMIN) (XMAX - XMIN) = 1 := Int.tdiv_self hTX
  have hybs : Int.tdiv (YMAX - YMIN) 1 = YMAX - YMIN := Int.tdiv_one _
  rw [hxbs, hybs]
  have hSYpos : (0 : ℤ) < YMAX - YMIN := by omega
  obtain ⟨hbs0, hbsle⟩ := blockSum_bounds img g W (XMIN + (bx : ℤ) * 1) YMIN (YMAX - YMIN)
  have htn : (((YMAX - YMIN).toNat : ℕ) : ℤ) = YMAX - YMIN := Int.toNat_of_nonneg hSYpos.le
  have hcnt : ((1 * (YMAX - YMIN) : ℤ) : ℚ) = (((YMAX - YMIN).toNat : ℕ) : ℚ) := by
    calc ((1 * (YMAX - YMIN) : ℤ) : ℚ) = (((YMAX - YMIN) : ℤ) : ℚ) := by rw [one_mul]
      _ = ((((YMAX - YMIN).toNat : ℕ) : ℤ) : ℚ) := by rw [htn]
      _ = (((YMAX - YMIN).toNat : ℕ) : ℚ) := by push_cast; ring
  have hcntpos : (0 : ℚ) < (((YMAX - YMIN).toNat : ℕ) : ℚ) := by
    have : 0 < (YMAX - YMIN).toNat := by omega
    exact_mod_cast this
  have hD1pos : (0 : ℚ) < (if g then (255 : ℚ) else 255 * 3) := by
    cases g <;> norm_num
  constructor
  · apply div_nonneg (div_nonneg hbs0 hD1pos.le)
    rw [hcnt]
    exact hcntpos.le
  · rw [hcnt, div_le_one hcntpos, div_le_iff hD1pos]
    have hD1eq : (if g then (255 : ℚ) else 765) = (if g then (255 : ℚ) else 255 * 3) := by
      cases g <;> norm_num
    rw [hD1eq] at hbsle
    calc blockSum img g W (XMIN + (bx : ℤ) * 1) YMIN 1 (YMAX - YMIN)
        ≤ (if g then (255 : ℚ) else 255 * 3) * ((YMAX - YMIN).toNat : ℚ) := hbsle
      _ = ((YMAX - YMIN).toNat : ℚ) * (if g then (255 : ℚ) else 255 * 3) := by ring

/-- Claim C4 witness: the single entry extracted from the 1×1 region
`[0,1) × [0,1)` of a 1×1 mid-grey image lies in `[0, 1]`. -/
theorem c4_witness :
    0 ≤ (convert_view_to_view_template (fun _ => (128 : Fin 256)) true 1 0 1 0 1).getD 0 0 ∧
    (convert_view_to_view_template (fun _ => (128 : Fin 256)) true 1 0 1 0 1).getD 0 0 ≤ 1 := by
  have hlen : (convert_view_to_view_template (fun _ => (128 : Fin 256)) true 1 0 1 0 1).length
      = 1 := by
    unfold convert_view_to_view_template
    rw [List.length_map, List.length_range]
    decide
  have hmem : (convert_view_to_view_template (fun _ => (128 : Fin 256)) true 1 0 1 0 1).getD 0 0
      ∈ convert_view_to_view_template (fun _ => (128 : Fin 256)) true 1 0 1 0 1 := by
    rw [List.getD_eq_getElem _ _ (by omega)]
    exact List.getElem_mem (by omega)
  exact c4_profile_entries_in_unit_interval (fun _ => (128 : Fin 256)) true 1 1 0 1 0 1
    (by decide) (by decide) (by decide) (by decide) (by decide) (by decide) _ hmem

/-- Claim C10 (confirmed): the rotation search's winning signed offset
always has magnitude at most `39` (the hard-coded radius `slen = 40`,
exclusive), whatever the profile length; consequently, for a positive image
width (and non-negative calibration constants, as the claim's physical
quantities presuppose) the rotational-rate magnitude is bounded by
`39 * CAMERA_FOV_DEG * CAMERA_HZ * π / (180 * IMAGE_WIDTH)`. -/
theorem c10_offset_bounded (s : VisualOdometry) (img : ℕ → Fin 256) (g : Bool)
    (W H : ℕ) :
    |(on_image s img g W H).rotMinoffset| ≤ 39 ∧
    (0 < W → 0 ≤ s.CAMERA_FOV_DEG → 0 ≤ s.CAMERA_HZ →
      |on_image_vrot s img g W H| ≤
        39 * (s.CAMERA_FOV_DEG : ℝ) * (s.CAMERA_HZ : ℝ) * Real.pi / (180 * (W : ℝ))) := by
  have h1 : |(on_image s img g W H).rotMinoffset| ≤ 39 := by
    by_cases hf : s.first <;>
      simp only [on_image, hf, if_true, if_false, Bool.false_eq_true, visual_odo] <;>
      exact searchResult_minoffset_abs_le _ _ _
  refine ⟨h1, fun hW hfov hhz => ?_⟩
  have hveq : on_image_vrot s img g W H =
      vrot_of (on_image s img g W H).rotMinoffset s.CAMERA_FOV_DEG s.CAMERA_HZ
        ((W : ℕ) : ℤ) := by
    by_cases hf : s.first <;>
      simp only [on_image_vrot, on_image, hf, if_true, if_false, Bool.false_eq_true]
  rw [hveq]
  exact vrot_of_abs_le _ _ _ _ h1 hW hfov hhz

/-- Claim C10 witness: a concrete call whose winning offset magnitude is at
most `39` and whose rotational rate obeys the claimed bound. -/
theorem c10_witness :
    |(on_image (VisualOdometry.construct 0 0 0 0 0 0 0 0 1 1 1 1 1 1)
      (fun _ => 0) true 1 1).rotMinoffset| ≤ 39 ∧
    |on_image_vrot (VisualOdometry.construct 0 0 0 0 0 0 0 0 1 1 1 1 1 1)
        (fun _ => 0) true 1 1| ≤
      39 * ((VisualOdometry.construct 0 0 0 0 0 0 0 0 1 1 1 1 1 1).CAMERA_FOV_DEG : ℝ)
        * ((VisualOdometry.construct 0 0 0 0 0 0 0 0 1 1 1 1 1 1).CAMERA_HZ : ℝ)
        * Real.pi / (180 * ((1 : ℕ) : ℝ)) :=
  ⟨(c10_offset_bounded (VisualOdometry.construct 0 0 0 0 0 0 0 0 1 1 1 1 1 1)
      (fun _ => 0) true 1 1).1,
    (c10_offset_bounded (VisualOdometry.construct 0 0 0 0 0 0 0 0 1 1 1 1 1 1)
      (fun _ => 0) true 1 1).2 (by norm_num)
      (by norm_num [VisualOdometry.construct]) (by norm_num [VisualOdometry.construct])⟩

end ratslam
